import Mathlib

/-!
Verification development for the two-tier failover cache implemented in
`backend/app/cache/redis_cache.py`: a `MemoryCache` (bounded, TTL-aware LRU
map over an `OrderedDict`), a `RedisCache` remote-store adapter, and a
`CompositeCache` failover coordinator, plus the key builder
`CacheBase.build_market_data_key`.

Modelling conventions:
- Wall-clock time (`time.time()`) is an explicit `now : Nat` argument; each
  public operation reads a single instant.
- Python values are modelled by `PyVal`; values that `json.dumps` cannot
  serialize (raising `TypeError`) are the `nonJson` constructor.
- The wire format of the remote store is abstracted by `Payload`: a payload is
  either the faithful serialization of a `PyVal` (`json.loads ∘ json.dumps` is
  the identity on serializable values) or a `malformed` byte string on which
  `json.loads` raises `JSONDecodeError`.  Server-side TTL expiry of the remote
  store is external to the repository and not modelled; no claim touches it.
- Python dictionaries are association lists; `OrderedDict` order is list
  order with the least-recently-used entry at the head.
- Python truthiness of the `_redis_unavailable_since` timestamp (`None` and
  `0.0` are falsy) is modelled by `truthyTime`.
-/

namespace GuessTrade

/-- Model of the Python values stored in the cache.  The `nonJson`
constructor stands for any object `json.dumps` rejects with `TypeError`. -/
inductive PyVal where
  | jNull
  | jBool (b : Bool)
  | jInt (n : Int)
  | jStr (s : String)
  | nonJson (oid : Nat)
deriving DecidableEq, Repr

/-- Whether `json.dumps` succeeds on the value. -/
def PyVal.serializable : PyVal → Bool
  | .nonJson _ => false
  | _ => true

/-- A payload held by the remote store: either the serialization of a value
(on which `json.loads` recovers the value) or a malformed string (on which
`json.loads` raises `JSONDecodeError`). -/
inductive Payload where
  | good (v : PyVal)
  | malformed (s : String)
deriving DecidableEq, Repr

/-- Association-list lookup, the model of Python `dict` indexing and the
`in` membership test. -/
def alookup {α : Type} : List (String × α) → String → Option α
  | [], _ => none
  | p :: t, k => if p.1 = k then some p.2 else alookup t k

/-- Model of `d[key] = value` on a Python `dict` / `OrderedDict`: an existing
key keeps its position and gets the new value; a fresh key is appended at the
end (most-recently-used position). -/
def odSet {α : Type} : List (String × α) → String → α → List (String × α)
  | [], k, v => [(k, v)]
  | p :: t, k, v => if p.1 = k then (k, v) :: t else p :: odSet t k v

/-- Model of `d.pop(key, None)`: remove the entry for `key` if present. -/
def removeKey {α : Type} (l : List (String × α)) (k : String) : List (String × α) :=
  l.filter (fun p => p.1 ≠ k)

/-- Model of `OrderedDict.move_to_end(key)` (as used in `MemoryCache.get_data`,
where the key is known to be present). -/
def moveToEnd {α : Type} (l : List (String × α)) (k : String) : List (String × α) :=
  match alookup l k with
  | none => l
  | some v => removeKey l k ++ [(k, v)]

/-- Model of the eviction loop in `MemoryCache.set_data`:
`while len(self._cache) >= self._max_size: self._cache.popitem(last=False)`.
Only the cache map is popped; the TTL map is left untouched by this loop,
exactly as in the source. -/
def evictOldest {α : Type} (n : Nat) : List (String × α) → List (String × α)
  | [] => []
  | p :: t => if n ≤ (p :: t).length then evictOldest n t else p :: t

/-- Decidable form of "no TTL entry has expired at instant `now`". -/
def allUnexpired (ttl : List (String × Nat)) (now : Nat) : Bool :=
  ttl.all (fun p => decide (now < p.2))

/-! ## MemoryCache (the fallback store) -/

/-- State of `MemoryCache`: the `OrderedDict` of values (head = oldest, tail =
most recently used), the `dict` of absolute expiry timestamps, and
`_max_size`. -/
structure MemoryCache where
  cache : List (String × PyVal)
  ttl : List (String × Nat)
  maxSize : Nat
deriving DecidableEq, Repr

/-- Whether `key` has an expiry entry that has passed (`exp <= now`), the
condition used by `MemoryCache._cleanup_expired`. -/
def isExpired (ttl : List (String × Nat)) (k : String) (now : Nat) : Bool :=
  match alookup ttl k with
  | some e => decide (e ≤ now)
  | none => false

/-- Model of `MemoryCache._cleanup_expired`: every key whose expiry timestamp
is `<= now` is popped from both the cache map and the TTL map. -/
def MemoryCache.cleanup_expired (m : MemoryCache) (now : Nat) : MemoryCache :=
  { m with
    cache := m.cache.filter (fun p => !(isExpired m.ttl p.1 now)),
    ttl := m.ttl.filter (fun p => decide (now < p.2)) }

/-- Model of `MemoryCache.set_data`.  The source first sweeps expired entries,
then pops the oldest cache entries while the map is at or above `_max_size`,
then stores the value and its expiry.  With `_max_size = 0` the loop calls
`popitem` on an eventually-empty `OrderedDict`, which raises `KeyError`; the
surrounding `except` then makes the call return `False` with the cache map
emptied and the TTL map as left by the sweep. -/
def MemoryCache.set_data (m : MemoryCache) (k : String) (v : PyVal)
    (ttl_seconds now : Nat) : Bool × MemoryCache :=
  let m1 := m.cleanup_expired now
  if m.maxSize = 0 then
    (false, { m1 with cache := [] })
  else
    (true, { m1 with
      cache := odSet (evictOldest m.maxSize m1.cache) k v,
      ttl := odSet m1.ttl k (now + ttl_seconds) })

/-- Model of `MemoryCache.get_data`: a present, unexpired key (the check is
`time.time() <= self._ttl.get(key, 0)`) is moved to the most-recently-used
position and returned; a present but expired key is removed from both maps
and `None` is returned; an absent key returns `None`. -/
def MemoryCache.get_data (m : MemoryCache) (k : String) (now : Nat) :
    Option PyVal × MemoryCache :=
  match alookup m.cache k with
  | some v =>
    if now ≤ (alookup m.ttl k).getD 0 then
      (some v, { m with cache := moveToEnd m.cache k })
    else
      (none, { m with cache := removeKey m.cache k, ttl := removeKey m.ttl k })
  | none => (none, m)

/-- Model of `MemoryCache.delete_data`: removes the key if present, returns
`True` in either case. -/
def MemoryCache.delete_data (m : MemoryCache) (k : String) : Bool × MemoryCache :=
  if (alookup m.cache k).isSome then
    (true, { m with cache := removeKey m.cache k, ttl := removeKey m.ttl k })
  else
    (true, m)

/-! ## RedisCache (the remote store adapter) -/

/-- Model of the remote store as seen through the `redis` client: `up` is true
when the connection and ping succeed (`is_available`), and `store` maps keys
to stored payloads. -/
structure RedisClient where
  up : Bool
  store : List (String × Payload)
deriving DecidableEq, Repr

/-- Model of `RedisCache.set_data`: fails when the store is unavailable or
when `json.dumps` raises `TypeError` (non-serializable value); otherwise
`setex` stores the serialized payload and the call returns `True`.  The
`ttl_seconds` argument is passed to `setex`; server-side expiry is not
modelled. -/
def RedisClient.set_data (c : RedisClient) (k : String) (v : PyVal)
    (ttl_seconds : Nat) : Bool × RedisClient :=
  if c.up = false then (false, c)
  else if v.serializable = false then (false, c)
  else (true, { c with store := odSet c.store k (Payload.good v) })

/-- Model of `RedisCache.get_data`: returns `None` when the store is
unavailable, when the key is absent, and also when the stored payload is
malformed (`json.loads` raises `JSONDecodeError`, which is caught and turned
into `None`).  Note the three cases are indistinguishable to the caller. -/
def RedisClient.get_data (c : RedisClient) (k : String) : Option PyVal :=
  if c.up = false then none
  else
    match alookup c.store k with
    | none => none
    | some (Payload.good v) => some v
    | some (Payload.malformed _) => none

/-- Model of `RedisCache.delete_data`: fails when unavailable, otherwise
deletes the key (a no-op on an absent key) and returns `True`. -/
def RedisClient.delete_data (c : RedisClient) (k : String) : Bool × RedisClient :=
  if c.up = false then (false, c)
  else (true, { c with store := removeKey c.store k })

/-! ## CompositeCache (the failover coordinator) -/

/-- State of `CompositeCache`: the two tiers, `_redis_unavailable_since`
(`None` initially) and `_retry_interval` (60 in the source). -/
structure CompositeCache where
  redis : RedisClient
  memory : MemoryCache
  unavailable_since : Option Nat
  retry_interval : Nat
deriving DecidableEq, Repr

/-- Python truthiness of the optional timestamp `_redis_unavailable_since`:
`None` and `0.0` are falsy. -/
def truthyTime : Option Nat → Bool
  | none => false
  | some t => decide (t ≠ 0)

/-- Model of `CompositeCache._should_try_redis`: try the remote store when the
failure timestamp is unset (falsy), or when
`time.time() - self._redis_unavailable_since > self._retry_interval`. -/
def CompositeCache.should_try_redis (s : CompositeCache) (now : Nat) : Bool :=
  if truthyTime s.unavailable_since = false then true
  else if s.retry_interval < now - (s.unavailable_since.getD 0) then true
  else false

/-- Model of `CompositeCache.set_data`: conditionally try the remote store
first; on remote failure set `_redis_unavailable_since` only if it was unset,
on remote success clear it; then always write the memory tier; return the
disjunction of the two outcomes. -/
def CompositeCache.set_data (s : CompositeCache) (k : String) (v : PyVal)
    (ttl_seconds now : Nat) : Bool × CompositeCache :=
  if s.should_try_redis now then
    let r := s.redis.set_data k v ttl_seconds
    let since' : Option Nat :=
      if r.1 then none
      else if truthyTime s.unavailable_since then s.unavailable_since else some now
    let mres := s.memory.set_data k v ttl_seconds now
    (r.1 || mres.1,
      { redis := r.2, memory := mres.2, unavailable_since := since',
        retry_interval := s.retry_interval })
  else
    let mres := s.memory.set_data k v ttl_seconds now
    (mres.1, { s with memory := mres.2 })

/-- Model of `CompositeCache.get_data`: conditionally try the remote store; a
non-`None` remote result clears `_redis_unavailable_since` and is returned
without consulting the memory tier; otherwise fall through to the memory
tier.  The source's `except` branch (which would set the failure timestamp)
is unreachable for transport failures and malformed payloads because
`RedisCache.get_data` catches those errors and returns `None`. -/
def CompositeCache.get_data (s : CompositeCache) (k : String) (now : Nat) :
    Option PyVal × CompositeCache :=
  if s.should_try_redis now then
    match s.redis.get_data k with
    | some v => (some v, { s with unavailable_since := none })
    | none =>
      let mres := s.memory.get_data k now
      (mres.1, { s with memory := mres.2 })
  else
    let mres := s.memory.get_data k now
    (mres.1, { s with memory := mres.2 })

/-- Model of `CompositeCache.delete_data`: same failover bookkeeping as
`set_data`, then always delete from the memory tier; return the disjunction
of the two outcomes. -/
def CompositeCache.delete_data (s : CompositeCache) (k : String) (now : Nat) :
    Bool × CompositeCache :=
  if s.should_try_redis now then
    let r := s.redis.delete_data k
    let since' : Option Nat :=
      if r.1 then none
      else if truthyTime s.unavailable_since then s.unavailable_since else some now
    let mres := s.memory.delete_data k
    (r.1 || mres.1,
      { redis := r.2, memory := mres.2, unavailable_since := since',
        retry_interval := s.retry_interval })
  else
    let mres := s.memory.delete_data k
    (mres.1, { s with memory := mres.2 })

/-! ## Key builder -/

/-- Model of `CacheBase.build_market_data_key`.  The Python guard is
`if data_type == "intraday" and interval:`, where a `None` or empty-string
interval is falsy. -/
def build_market_data_key (symbol data_type : String) (interval : Option String) :
    String :=
  match interval with
  | some i =>
    if data_type = "intraday" ∧ i ≠ "" then
      "market_data:" ++ symbol ++ ":" ++ data_type ++ ":" ++ i
    else
      "market_data:" ++ symbol ++ ":" ++ data_type
  | none => "market_data:" ++ symbol ++ ":" ++ data_type

/-- Whether a string contains no ':' separator character. -/
def noColon (s : String) : Bool :=
  s.data.all (fun c => c != ':')

/-- Splitting a character list at every ':' — the decoding function used to
show the key format is injective on colon-free segments. -/
def splitC : List Char → List (List Char)
  | [] => [[]]
  | c :: rest =>
    if c = ':' then [] :: splitC rest
    else (c :: (splitC rest).headI) :: (splitC rest).tail

/-- Side condition on key-builder arguments under which the produced keys are
injective: the segments contain no ':' and an interval is supplied exactly
when it is non-empty and the data type is "intraday" (otherwise the source
ignores or drops it). -/
def KeyArgsOk (s d : String) (i : Option String) : Prop :=
  noColon s = true ∧ noColon d = true ∧
    match i with
    | none => True
    | some x => noColon x = true ∧ x ≠ "" ∧ d = "intraday"

/-! ## Concrete states used by the closed evaluation theorems -/

/-- An empty fallback store of the given capacity. -/
def memEmpty (n : Nat) : MemoryCache := { cache := [], ttl := [], maxSize := n }

/-- A remote store whose transport is down (every ping fails). -/
def downRedis : RedisClient := { up := false, store := [] }

/-- A healthy remote store holding no keys. -/
def upEmptyRedis : RedisClient := { up := true, store := [] }

/-- A freshly constructed coordinator over a dead remote store, with the
source's retry interval of 60 seconds. -/
def compDown : CompositeCache :=
  { redis := downRedis, memory := memEmpty 10, unavailable_since := none,
    retry_interval := 60 }

/-- A coordinator in the Open failover state (failure recorded at instant 1)
over a healthy but empty remote store. -/
def compOpenUp : CompositeCache :=
  { redis := upEmptyRedis, memory := memEmpty 10, unavailable_since := some 1,
    retry_interval := 60 }

/-! ## Association-list and eviction lemmas -/

theorem alookup_odSet_self {α : Type} (l : List (String × α)) (k : String) (v : α) :
    alookup (odSet l k v) k = some v := by
  induction l with
  | nil => simp [odSet, alookup]
  | cons p t ih =>
    by_cases h : p.1 = k
    · simp [odSet, alookup, h]
    · simp [odSet, alookup, h, ih]

theorem alookup_eq_none_iff {α : Type} (l : List (String × α)) (k : String) :
    alookup l k = none ↔ ∀ p ∈ l, p.1 ≠ k := by
  induction l with
  | nil => simp [alookup]
  | cons p t ih =>
    by_cases h : p.1 = k
    · simp [alookup, h]
    · simp [alookup, h, ih]

theorem alookup_mem {α : Type} {l : List (String × α)} {k : String} {v : α}
    (h : alookup l k = some v) : (k, v) ∈ l := by
  induction l with
  | nil => simp [alookup] at h
  | cons p t ih =>
    by_cases hp : p.1 = k
    · simp [alookup, hp] at h
      have hpk : p = (k, v) := by
        cases p
        simp_all

      rw [← hpk]
      exact List.mem_cons_self p t
    · simp [alookup, hp] at h
      exact List.mem_cons_of_mem _ (ih h)

theorem odSet_eq_append {α : Type} {l : List (String × α)} {k : String} (v : α)
    (h : alookup l k = none) : odSet l k v = l ++ [(k, v)] := by
  induction l with
  | nil => simp [odSet]
  | cons p t ih =>
    have hp : ¬ p.1 = k := by
      intro hc
      simp [alookup, hc] at h
    have ht : alookup t k = none := by simpa [alookup, hp] using h
    simp [odSet, hp, ih ht]

theorem odSet_map_fst {α : Type} {l : List (String × α)} {k : String} (v : α)
    (h : (alookup l k).isSome = true) :
    (odSet l k v).map Prod.fst = l.map Prod.fst := by
  induction l with
  | nil => simp [alookup] at h
  | cons p t ih =>
    by_cases hp : p.1 = k
    · simp [odSet, hp]
    · have ht : (alookup t k).isSome = true := by simpa [alookup, hp] using h
      simp [odSet, hp, ih ht]

theorem odSet_length_le {α : Type} (l : List (String × α)) (k : String) (v : α) :
    (odSet l k v).length ≤ l.length + 1 := by
  induction l with
  | nil => simp [odSet]
  | cons p t ih =>
    by_cases hp : p.1 = k
    · simp [odSet, hp]
    · simp only [odSet, if_neg hp, List.length_cons]
      omega

theorem alookup_removeKey_self {α : Type} (l : List (String × α)) (k : String) :
    alookup (removeKey l k) k = none := by
  induction l with
  | nil => simp [removeKey, alookup]
  | cons p t ih =>
    by_cases hp : p.1 = k
    · simpa [removeKey, List.filter_cons, hp] using ih
    · simpa [removeKey, List.filter_cons, hp, alookup] using ih

theorem removeKey_idem {α : Type} (l : List (String × α)) (k : String) :
    removeKey (removeKey l k) k = removeKey l k := by
  induction l with
  | nil => simp [removeKey]
  | cons p t ih =>
    by_cases hp : p.1 = k
    · simpa [removeKey, List.filter_cons, hp] using ih
    · simpa [removeKey, List.filter_cons, hp] using ih

theorem removeKey_length_lt {α : Type} {l : List (String × α)} {k : String}
    (h : (alookup l k).isSome = true) : (removeKey l k).length < l.length := by
  induction l with
  | nil => simp [alookup] at h
  | cons p t ih =>
    by_cases hp : p.1 = k
    · have hf : decide (p.1 ≠ k) = false := by simp [hp]
      have hle := List.length_filter_le (fun q : String × α => decide (q.1 ≠ k)) t
      simp only [removeKey, List.filter_cons, hf, Bool.false_eq_true, if_false,
        List.length_cons]
      omega
    · have ht : (alookup t k).isSome = true := by simpa [alookup, hp] using h
      have hlt := ih ht
      have hf : decide (p.1 ≠ k) = true := by simp [hp]
      simp only [removeKey, List.filter_cons, hf, if_true, List.length_cons] at hlt ⊢
      omega

theorem removeKey_length_le {α : Type} (l : List (String × α)) (k : String) :
    (removeKey l k).length ≤ l.length :=
  List.length_filter_le _ l

theorem moveToEnd_length_le {α : Type} (l : List (String × α)) (k : String) :
    (moveToEnd l k).length ≤ l.length := by
  unfold moveToEnd
  cases h : alookup l k with
  | none => exact le_refl _
  | some v =>
    have hlt := removeKey_length_lt (l := l) (k := k) (by simp [h])
    simp only [List.length_append, List.length_singleton]
    omega

theorem alookup_filter_none {α : Type} {l : List (String × α)} {k : String}
    (p : String × α → Bool) (h : alookup l k = none) :
    alookup (l.filter p) k = none := by
  rw [alookup_eq_none_iff] at h ⊢
  intro q hq
  exact h q (List.mem_of_mem_filter hq)

theorem evictOldest_mem {α : Type} {n : Nat} {l : List (String × α)}
    {x : String × α} (h : x ∈ evictOldest n l) : x ∈ l := by
  induction l with
  | nil => simpa [evictOldest] using h
  | cons p t ih =>
    by_cases hc : n ≤ t.length + 1
    · simp only [evictOldest, List.length_cons, if_pos hc] at h
      exact List.mem_cons_of_mem _ (ih h)
    · simpa [evictOldest, if_neg hc] using h

theorem evictOldest_length_lt {α : Type} {n : Nat} (hn : 0 < n)
    (l : List (String × α)) : (evictOldest n l).length < n := by
  induction l with
  | nil => simpa [evictOldest] using hn
  | cons p t ih =>
    by_cases hc : n ≤ t.length + 1
    · simpa [evictOldest, List.length_cons, if_pos hc] using ih
    · simp only [evictOldest, List.length_cons, if_neg hc]
      omega

theorem evictOldest_eq_self {α : Type} {n : Nat} {l : List (String × α)}
    (h : l.length < n) : evictOldest n l = l := by
  cases l with
  | nil => simp [evictOldest]
  | cons p t =>
    simp only [List.length_cons] at h
    have hc : ¬ n ≤ t.length + 1 := by omega
    simp [evictOldest, hc]

theorem evictOldest_eq_tail {α : Type} {n : Nat} {l : List (String × α)}
    (hn : 0 < n) (h : l.length = n) : evictOldest n l = l.tail := by
  cases l with
  | nil =>
    simp only [List.length_nil] at h
    omega
  | cons p t =>
    simp only [List.length_cons] at h
    have hc : n ≤ t.length + 1 := by omega
    have ht : t.length < n := by omega
    simp [evictOldest, hc, evictOldest_eq_self ht]

/-! ## Operation-level lemmas -/

theorem cleanup_expired_of_allUnexpired {m : MemoryCache} {now : Nat}
    (h : allUnexpired m.ttl now = true) : m.cleanup_expired now = m := by
  have hall : ∀ p ∈ m.ttl, now < p.2 := by
    intro p hp
    have := List.all_eq_true.mp h p hp
    simpa using this
  have httl : m.ttl.filter (fun p => decide (now < p.2)) = m.ttl := by
    rw [List.filter_eq_self]
    intro p hp
    simpa using hall p hp
  have hcache : m.cache.filter (fun p => !(isExpired m.ttl p.1 now)) = m.cache := by
    rw [List.filter_eq_self]
    intro p _
    cases he : alookup m.ttl p.1 with
    | none => simp [isExpired, he]
    | some e =>
      have := hall (p.1, e) (alookup_mem he)
      simp only [isExpired, he]
      simp
      omega
  unfold MemoryCache.cleanup_expired
  rw [httl, hcache]

theorem mem_set_fst {m : MemoryCache} (k : String) (v : PyVal) (t now : Nat)
    (hN : 0 < m.maxSize) : (m.set_data k v t now).1 = true := by
  have hne : ¬ m.maxSize = 0 := by omega
  simp [MemoryCache.set_data, hne]

theorem mem_set_alookup {m : MemoryCache} (k : String) (v : PyVal) (t now : Nat)
    (hN : 0 < m.maxSize) :
    alookup (m.set_data k v t now).2.cache k = some v := by
  have hne : ¬ m.maxSize = 0 := by omega
  simp [MemoryCache.set_data, hne, alookup_odSet_self]

theorem mem_set_ttl_alookup {m : MemoryCache} (k : String) (v : PyVal)
    (t now : Nat) (hN : 0 < m.maxSize) :
    alookup (m.set_data k v t now).2.ttl k = some (now + t) := by
  have hne : ¬ m.maxSize = 0 := by omega
  simp [MemoryCache.set_data, hne, alookup_odSet_self]

theorem mem_set_get {m : MemoryCache} {k : String} {v : PyVal} {t now now' : Nat}
    (hN : 0 < m.maxSize) (hle : now' ≤ now + t) :
    ((m.set_data k v t now).2.get_data k now').1 = some v := by
  have h1 := mem_set_alookup (m := m) k v t now hN
  have h2 := mem_set_ttl_alookup (m := m) k v t now hN
  simp [MemoryCache.get_data, h1, h2, hle]

theorem mem_delete_fst (m : MemoryCache) (k : String) :
    (m.delete_data k).1 = true := by
  unfold MemoryCache.delete_data
  split <;> rfl

theorem mem_delete_idem (m : MemoryCache) (k : String) :
    (m.delete_data k).2.delete_data k = m.delete_data k := by
  cases h : alookup m.cache k with
  | none => simp [MemoryCache.delete_data, h]
  | some v => simp [MemoryCache.delete_data, h, alookup_removeKey_self]

/-! ## Key-format decoding lemmas -/

theorem splitC_append (l₁ l₂ : List Char) (h : ∀ c ∈ l₁, c ≠ ':') :
    splitC (l₁ ++ ':' :: l₂) = l₁ :: splitC l₂ := by
  induction l₁ with
  | nil => simp [splitC]
  | cons c t ih =>
    have hc : ¬ c = ':' := h c (List.mem_cons_self c t)
    have ht : ∀ x ∈ t, x ≠ ':' := fun x hx => h x (List.mem_cons_of_mem c hx)
    simp only [List.cons_append, splitC, List.append_eq, if_neg hc, ih ht]
    rfl

theorem splitC_no_colon (l : List Char) (h : ∀ c ∈ l, c ≠ ':') :
    splitC l = [l] := by
  induction l with
  | nil => simp [splitC]
  | cons c t ih =>
    have hc : ¬ c = ':' := h c (List.mem_cons_self c t)
    have ht : ∀ x ∈ t, x ≠ ':' := fun x hx => h x (List.mem_cons_of_mem c hx)
    simp only [splitC, if_neg hc, ih ht]
    rfl

theorem noColon_spec {s : String} (h : noColon s = true) :
    ∀ c ∈ s.data, c ≠ ':' := by
  intro c hc
  have := List.all_eq_true.mp h c hc
  simpa using this

theorem market_data_no_colon : ∀ c ∈ ("market_data").data, c ≠ ':' := by
  decide

theorem key_data_short (s d : String) :
    ("market_data:" ++ s ++ ":" ++ d).data
      = ("market_data").data ++ ':' :: (s.data ++ ':' :: d.data) := by
  have h1 : ("market_data:").data = ("market_data").data ++ [':'] := by decide
  have h2 : (":").data = [':'] := by decide
  simp [String.data_append, h1, h2]

theorem key_data_long (s d i : String) :
    ("market_data:" ++ s ++ ":" ++ d ++ ":" ++ i).data
      = ("market_data").data
          ++ ':' :: (s.data ++ ':' :: (d.data ++ ':' :: i.data)) := by
  have h1 : ("market_data:").data = ("market_data").data ++ [':'] := by decide
  have h2 : (":").data = [':'] := by decide
  simp [String.data_append, h1, h2]

theorem splitC_key_short {s d : String} (hs : noColon s = true)
    (hd : noColon d = true) :
    splitC ("market_data:" ++ s ++ ":" ++ d).data
      = [("market_data").data, s.data, d.data] := by
  rw [key_data_short, splitC_append _ _ market_data_no_colon,
    splitC_append _ _ (noColon_spec hs), splitC_no_colon _ (noColon_spec hd)]

theorem splitC_key_long {s d i : String} (hs : noColon s = true)
    (hd : noColon d = true) (hi : noColon i = true) :
    splitC ("market_data:" ++ s ++ ":" ++ d ++ ":" ++ i).data
      = [("market_data").data, s.data, d.data, i.data] := by
  rw [key_data_long, splitC_append _ _ market_data_no_colon,
    splitC_append _ _ (noColon_spec hs), splitC_append _ _ (noColon_spec hd),
    splitC_no_colon _ (noColon_spec hi)]

theorem comp_delete_fst (s : CompositeCache) (k : String) (now : Nat) :
    (s.delete_data k now).1 = true := by
  cases hT : s.should_try_redis now with
  | false => simp [CompositeCache.delete_data, hT, mem_delete_fst]
  | true => simp [CompositeCache.delete_data, hT, mem_delete_fst]

theorem comp_delete_idem (s : CompositeCache) (k : String) (now : Nat) :
    (s.delete_data k now).2.delete_data k now = s.delete_data k now := by
  cases hT : s.should_try_redis now with
  | false =>
    have h1 : s.delete_data k now
        = ((s.memory.delete_data k).1,
          { s with memory := (s.memory.delete_data k).2 }) := by
      simp [CompositeCache.delete_data, hT]
    rw [h1]
    have hT2 : CompositeCache.should_try_redis
        { s with memory := (s.memory.delete_data k).2 } now = false := hT
    simp [CompositeCache.delete_data, hT2, mem_delete_idem]
  | true =>
    cases hup : s.redis.up with
    | true =>
      have hr : s.redis.delete_data k
          = (true, { s.redis with store := removeKey s.redis.store k }) := by
        simp [RedisClient.delete_data, hup]
      have h1 : s.delete_data k now
          = (true,
            { redis := { s.redis with store := removeKey s.redis.store k },
              memory := (s.memory.delete_data k).2, unavailable_since := none,
              retry_interval := s.retry_interval }) := by
        simp [CompositeCache.delete_data, hT, hr]
      rw [h1]
      have hr2 : RedisClient.delete_data
          { s.redis with store := removeKey s.redis.store k } k
          = (true, { s.redis with store := removeKey s.redis.store k }) := by
        simp [RedisClient.delete_data, hup, removeKey_idem]
      simp [CompositeCache.delete_data, CompositeCache.should_try_redis,
        truthyTime, hr2, mem_delete_idem]
    | false =>
      have hr : s.redis.delete_data k = (false, s.redis) := by
        simp [RedisClient.delete_data, hup]
      cases htr : truthyTime s.unavailable_since with
      | true =>
        have h1 : s.delete_data k now
            = ((s.memory.delete_data k).1,
              { redis := s.redis, memory := (s.memory.delete_data k).2,
                unavailable_since := s.unavailable_since,
                retry_interval := s.retry_interval }) := by
          simp [CompositeCache.delete_data, hT, hr, htr]
        rw [h1]
        have hT2 : CompositeCache.should_try_redis
            { redis := s.redis, memory := (s.memory.delete_data k).2,
              unavailable_since := s.unavailable_since,
              retry_interval := s.retry_interval } now = true := hT
        simp [CompositeCache.delete_data, hT2, hr, htr, mem_delete_idem]
      | false =>
        have h1 : s.delete_data k now
            = ((s.memory.delete_data k).1,
              { redis := s.redis, memory := (s.memory.delete_data k).2,
                unavailable_since := some now,
                retry_interval := s.retry_interval }) := by
          simp [CompositeCache.delete_data, hT, hr, htr]
        rw [h1]
        by_cases h0 : now = 0
        · subst h0
          have hT2 : CompositeCache.should_try_redis
              { redis := s.redis, memory := (s.memory.delete_data k).2,
                unavailable_since := some 0,
                retry_interval := s.retry_interval } 0 = true := by
            simp [CompositeCache.should_try_redis, truthyTime]
          simp [CompositeCache.delete_data, hT2, hr, truthyTime, mem_delete_idem]
        · have hT2 : CompositeCache.should_try_redis
              { redis := s.redis, memory := (s.memory.delete_data k).2,
                unavailable_since := some now,
                retry_interval := s.retry_interval } now = false := by
            simp [CompositeCache.should_try_redis, truthyTime, h0]
          simp [CompositeCache.delete_data, hT2, mem_delete_idem]

/-! ## Claim theorems -/

/-- Claim C1 (code bug evaluation): with the remote store failing at every
call and a 60-second retry interval, a `set_data` at instant 1 opens the
failover state (`unavailable_since = some 1`); the retry interval elapses, so
the operation at instant 62 probes the remote store and fails — but the
elapsed-time window is not reset (`unavailable_since` is still `some 1`,
because the source only assigns the timestamp when it was unset), so the very
next operation at instant 63 probes the remote store again.  The claim says
the remote store would not be attempted again before instant 122. -/
theorem c1_failed_probe_does_not_reset_window :
    (((compDown.set_data "x" (PyVal.jInt 1) 3600 1).2).unavailable_since
        = some 1) ∧
    (((compDown.set_data "x" (PyVal.jInt 1) 3600 1).2).should_try_redis 62
        = true) ∧
    ((((compDown.set_data "x" (PyVal.jInt 1) 3600 1).2).set_data "x"
        (PyVal.jInt 1) 3600 62).2.unavailable_since = some 1) ∧
    ((((compDown.set_data "x" (PyVal.jInt 1) 3600 1).2).set_data "x"
        (PyVal.jInt 1) 3600 62).2.should_try_redis 63 = true) := by
  decide

/-- Claim C2 (code bug evaluation): the remote adapter's `get_data` returns
`none` for a transport failure, for an ordinary miss, and for a malformed
stored payload — the three outcomes are indistinguishable to the caller —
and consequently a coordinator whose remote get fails leaves
`unavailable_since` untouched (here it stays `none`, i.e. the failover state
is never updated by a failed remote get). -/
theorem c2_remote_get_failure_indistinguishable_from_miss :
    (downRedis.get_data "k" = none) ∧
    (upEmptyRedis.get_data "k" = none) ∧
    (RedisClient.get_data
        { up := true, store := [("k", Payload.malformed "not json")] } "k"
        = none) ∧
    ((compDown.get_data "k" 5).1 = none) ∧
    ((compDown.get_data "k" 5).2.unavailable_since = none) := by
  decide

/-- Claim C3 (counterexample): the coordinator is Open since instant 1 with a
healthy, empty remote store; at instant 62 the retry interval has elapsed, so
`get_data` probes the remote store, which succeeds and finds no value — yet
`unavailable_since` is not cleared (it stays `some 1`), contradicting the
claim that every successful remote operation, including a successful remote
get that finds no value, returns the failover state to Closed. -/
theorem c3_successful_remote_miss_does_not_close :
    ((compOpenUp.get_data "k" 62).1 = none) ∧
    ((compOpenUp.get_data "k" 62).2.unavailable_since = some 1) := by
  decide

/-- Claim C3 (amended): when the coordinator attempts the remote store and
the remote operation succeeds, `set_data` and `delete_data` clear
`unavailable_since` immediately, and `get_data` clears it when the remote get
returns a value; but a successful remote get that finds no value leaves
`unavailable_since` unchanged (the source only clears it under
`redis_data is not None`). -/
theorem c3_success_clears_except_get_miss (s : CompositeCache) (k : String)
    (v : PyVal) (t now : Nat) (hup : s.redis.up = true)
    (htry : s.should_try_redis now = true) :
    (v.serializable = true →
      (s.set_data k v t now).2.unavailable_since = none) ∧
    ((s.delete_data k now).2.unavailable_since = none) ∧
    (alookup s.redis.store k = some (Payload.good v) →
      (s.get_data k now).2.unavailable_since = none) ∧
    (alookup s.redis.store k = none →
      (s.get_data k now).2.unavailable_since = s.unavailable_since) := by
  refine ⟨?_, ?_, ?_, ?_⟩
  · intro hser
    simp [CompositeCache.set_data, htry, RedisClient.set_data, hup, hser]
  · simp [CompositeCache.delete_data, htry, RedisClient.delete_data, hup]
  · intro hk
    simp [CompositeCache.get_data, htry, RedisClient.get_data, hup, hk]
  · intro hk
    simp [CompositeCache.get_data, htry, RedisClient.get_data, hup, hk]

/-- Claim C3 witness: a coordinator that is Open since instant 1 over a
healthy remote store holding `k`, probed at instant 62. -/
theorem c3_witness :
    ((CompositeCache.mk
        (RedisClient.mk true [("k", Payload.good (PyVal.jInt 4))])
        (memEmpty 10) (some 1) 60).redis.up = true ∧
     (CompositeCache.mk
        (RedisClient.mk true [("k", Payload.good (PyVal.jInt 4))])
        (memEmpty 10) (some 1) 60).should_try_redis 62 = true) ∧
    (((PyVal.jInt 4).serializable = true →
      ((CompositeCache.mk
          (RedisClient.mk true [("k", Payload.good (PyVal.jInt 4))])
          (memEmpty 10) (some 1) 60).set_data "k" (PyVal.jInt 4) 50
          62).2.unavailable_since = none) ∧
     (((CompositeCache.mk
          (RedisClient.mk true [("k", Payload.good (PyVal.jInt 4))])
          (memEmpty 10) (some 1) 60).delete_data "k"
          62).2.unavailable_since = none) ∧
     (alookup [("k", Payload.good (PyVal.jInt 4))] "k"
          = some (Payload.good (PyVal.jInt 4)) →
      ((CompositeCache.mk
          (RedisClient.mk true [("k", Payload.good (PyVal.jInt 4))])
          (memEmpty 10) (some 1) 60).get_data "k"
          62).2.unavailable_since = none) ∧
     (alookup [("k", Payload.good (PyVal.jInt 4))] "k" = none →
      ((CompositeCache.mk
          (RedisClient.mk true [("k", Payload.good (PyVal.jInt 4))])
          (memEmpty 10) (some 1) 60).get_data "k"
          62).2.unavailable_since = some 1)) :=
  ⟨⟨by decide, by decide⟩,
    c3_success_clears_except_get_miss
      (CompositeCache.mk
        (RedisClient.mk true [("k", Payload.good (PyVal.jInt 4))])
        (memEmpty 10) (some 1) 60) "k" (PyVal.jInt 4) 50 62
      (by decide) (by decide)⟩

/-- Claim C4: for a fallback store of positive capacity whose map satisfies
`size <= N`, the bound still holds after any `set_data`, `get_data` or
`delete_data`; and a `set_data` on a store exactly at capacity with no
expired entries evicts exactly one entry — the least-recently-used one (the
head of the order) — before inserting the new entry, i.e. the resulting map
is the old map minus its head, updated with the new entry. -/
theorem c4_fallback_bounded_and_single_lru_eviction (m : MemoryCache)
    (k : String) (v : PyVal) (t now : Nat) (hN : 0 < m.maxSize)
    (hinv : m.cache.length ≤ m.maxSize) :
    ((m.set_data k v t now).2.cache.length ≤ m.maxSize) ∧
    ((m.get_data k now).2.cache.length ≤ m.maxSize) ∧
    ((m.delete_data k).2.cache.length ≤ m.maxSize) ∧
    (m.cache.length = m.maxSize → allUnexpired m.ttl now = true →
      (m.set_data k v t now).2.cache = odSet m.cache.tail k v) := by
  have hne : ¬ m.maxSize = 0 := by omega
  refine ⟨?_, ?_, ?_, ?_⟩
  · have h1 := odSet_length_le (evictOldest m.maxSize (m.cleanup_expired now).cache) k v
    have h2 := evictOldest_length_lt hN (m.cleanup_expired now).cache
    simp only [MemoryCache.set_data, if_neg hne]
    omega
  · cases h : alookup m.cache k with
    | none => simpa [MemoryCache.get_data, h] using hinv
    | some w =>
      simp only [MemoryCache.get_data, h]
      split
      · have := moveToEnd_length_le m.cache k
        simp only []
        omega
      · have := removeKey_length_le m.cache k
        simp only []
        omega
  · cases h : (alookup m.cache k).isSome with
    | false => simpa [MemoryCache.delete_data, h] using hinv
    | true =>
      have := removeKey_length_le m.cache k
      simp only [MemoryCache.delete_data, h, if_true]
      omega
  · intro hfull hexp
    have hclean := cleanup_expired_of_allUnexpired hexp
    simp only [MemoryCache.set_data, if_neg hne, hclean,
      evictOldest_eq_tail hN hfull]

/-- Claim C4 witness: a concrete store of capacity 2 at capacity with no
expired entries. -/
theorem c4_witness :
    (0 < 2 ∧
      (MemoryCache.mk [("A", PyVal.jInt 1), ("B", PyVal.jInt 2)]
        [("A", 100), ("B", 100)] 2).cache.length ≤ 2) ∧
    (((MemoryCache.mk [("A", PyVal.jInt 1), ("B", PyVal.jInt 2)]
        [("A", 100), ("B", 100)] 2).set_data "C" PyVal.jNull 50 5).2.cache.length ≤ 2 ∧
      ((MemoryCache.mk [("A", PyVal.jInt 1), ("B", PyVal.jInt 2)]
        [("A", 100), ("B", 100)] 2).get_data "C" 5).2.cache.length ≤ 2 ∧
      ((MemoryCache.mk [("A", PyVal.jInt 1), ("B", PyVal.jInt 2)]
        [("A", 100), ("B", 100)] 2).delete_data "C").2.cache.length ≤ 2 ∧
      ((MemoryCache.mk [("A", PyVal.jInt 1), ("B", PyVal.jInt 2)]
          [("A", 100), ("B", 100)] 2).cache.length = 2 →
        allUnexpired [("A", 100), ("B", 100)] 5 = true →
        ((MemoryCache.mk [("A", PyVal.jInt 1), ("B", PyVal.jInt 2)]
          [("A", 100), ("B", 100)] 2).set_data "C" PyVal.jNull 50 5).2.cache
          = odSet [("B", PyVal.jInt 2)] "C" PyVal.jNull)) :=
  ⟨⟨by decide, by decide⟩,
    c4_fallback_bounded_and_single_lru_eviction
      (MemoryCache.mk [("A", PyVal.jInt 1), ("B", PyVal.jInt 2)]
        [("A", 100), ("B", 100)] 2) "C" PyVal.jNull 50 5
      (by decide) (by decide)⟩

/-- Claim C5 (counterexample): with capacity 10, set `a`, then `b`, then
overwrite `a`; after the overwriting set the eviction order is still
`[a, b]`, i.e. `a` is not the most-recently-used entry (`OrderedDict`
assignment keeps an existing key's position), contradicting the claim that a
set always leaves its key as the last entry in the eviction order. -/
theorem c5_overwrite_is_not_marked_most_recently_used :
    ((((((memEmpty 10).set_data "a" (PyVal.jInt 1) 100 1).2).set_data "b"
          (PyVal.jInt 2) 100 1).2.set_data "a" (PyVal.jInt 3) 100
          1).2.cache.map Prod.fst = ["a", "b"]) ∧
    (((((((memEmpty 10).set_data "a" (PyVal.jInt 1) 100 1).2).set_data "b"
          (PyVal.jInt 2) 100 1).2.set_data "a" (PyVal.jInt 3) 100
          1).2.cache.map Prod.fst).getLast? ≠ some "a") := by
  decide

/-- Claim C5 (amended): after `set_data(k, v, t)` on a store of positive
capacity, `k` is the most-recently-used entry (the tail of the eviction
order) when `k` was not previously present; but when `k` was already present
(and no entry is expired and the store is below capacity, so neither sweep
nor eviction interferes), the set overwrites the value in place and the order
of keys — hence `k`'s position in the eviction order — is unchanged. -/
theorem c5_set_mru_only_for_fresh_keys (m : MemoryCache) (k : String)
    (v : PyVal) (t now : Nat) (hN : 0 < m.maxSize) :
    (alookup m.cache k = none →
      ((m.set_data k v t now).2.cache).getLast? = some (k, v)) ∧
    ((alookup m.cache k).isSome = true → allUnexpired m.ttl now = true →
      m.cache.length < m.maxSize →
      ((m.set_data k v t now).2.cache).map Prod.fst = m.cache.map Prod.fst) := by
  have hne : ¬ m.maxSize = 0 := by omega
  constructor
  · intro h
    have h1 : alookup (m.cleanup_expired now).cache k = none := by
      unfold MemoryCache.cleanup_expired
      exact alookup_filter_none _ h
    have h2 : alookup (evictOldest m.maxSize (m.cleanup_expired now).cache) k = none := by
      rw [alookup_eq_none_iff] at h1 ⊢
      intro p hp
      exact h1 p (evictOldest_mem hp)
    simp only [MemoryCache.set_data, if_neg hne, odSet_eq_append v h2]
    simp
  · intro hsome hexp hlen
    have hclean := cleanup_expired_of_allUnexpired hexp
    simp only [MemoryCache.set_data, if_neg hne, hclean, evictOldest_eq_self hlen]
    exact odSet_map_fst v hsome

/-- Claim C5 witness: a fresh key lands at the tail; an overwritten key keeps
its position. -/
theorem c5_witness :
    (0 < 3) ∧
    ((alookup [("a", PyVal.jInt 1), ("b", PyVal.jInt 2)] "a" = none →
      (((MemoryCache.mk [("a", PyVal.jInt 1), ("b", PyVal.jInt 2)]
          [("a", 100), ("b", 100)] 3).set_data "a" (PyVal.jInt 9) 50
          5).2.cache).getLast? = some ("a", PyVal.jInt 9)) ∧
     ((alookup [("a", PyVal.jInt 1), ("b", PyVal.jInt 2)] "a").isSome = true →
      allUnexpired [("a", 100), ("b", 100)] 5 = true →
      ([("a", PyVal.jInt 1), ("b", PyVal.jInt 2)] :
          List (String × PyVal)).length < 3 →
      (((MemoryCache.mk [("a", PyVal.jInt 1), ("b", PyVal.jInt 2)]
          [("a", 100), ("b", 100)] 3).set_data "a" (PyVal.jInt 9) 50
          5).2.cache).map Prod.fst
        = ([("a", PyVal.jInt 1), ("b", PyVal.jInt 2)] :
            List (String × PyVal)).map Prod.fst)) :=
  ⟨by decide,
    c5_set_mru_only_for_fresh_keys
      (MemoryCache.mk [("a", PyVal.jInt 1), ("b", PyVal.jInt 2)]
        [("a", 100), ("b", 100)] 3) "a" (PyVal.jInt 9) 50 5 (by decide)⟩

/-- Claim C6 (counterexample): first, with capacity 1, `a` is set at instant
1 with a 100-second TTL and evicted by the set of `b` at instant 2, so
`get("a")` at instant 3 is already absent long before the TTL elapsed —
retrievability before `t` is not independent of eviction pressure.  Second, a
key set at instant 1 with `ttl_seconds = 10` is still returned by `get` at
instant 11, i.e. exactly when `t` seconds have elapsed (the source's check is
`time.time() <= expiry`), contradicting absence once `t` has elapsed. -/
theorem c6_ttl_claim_fails_under_eviction_and_at_boundary :
    (((((memEmpty 1).set_data "a" (PyVal.jInt 1) 100 1).2.set_data "b"
          (PyVal.jInt 2) 100 2).2.get_data "a" 3).1 = none) ∧
    ((((memEmpty 5).set_data "k" (PyVal.jInt 7) 10 1).2.get_data "k" 11).1
        = some (PyVal.jInt 7)) := by
  decide

/-- Claim C6 (amended): on a store of positive capacity, a key set at instant
`tset` with `ttl_seconds = t` and not touched since is returned by `get` at
any instant `now <= tset + t` (so it is still returned at the instant when
exactly `t` seconds have elapsed, the source's check being
`time.time() <= expiry`); and in any state whatsoever — independent of
eviction pressure — a present key whose recorded expiry lies strictly before
`now` is removed from both maps by `get` and absent is returned.  LRU
eviction may remove a key before its TTL elapses. -/
theorem c6_ttl_expiry_amended (m : MemoryCache) (k : String) (v : PyVal)
    (t tset now : Nat) (hN : 0 < m.maxSize) :
    (now ≤ tset + t → ((m.set_data k v t tset).2.get_data k now).1 = some v) ∧
    ((alookup m.cache k).isSome = true → (alookup m.ttl k).getD 0 < now →
      ((m.get_data k now).1 = none ∧
       alookup (m.get_data k now).2.cache k = none ∧
       alookup (m.get_data k now).2.ttl k = none)) := by
  constructor
  · intro hle
    exact mem_set_get hN hle
  · intro hsome hexp
    rw [Option.isSome_iff_exists] at hsome
    obtain ⟨w, hw⟩ := hsome
    have hnot : ¬ now ≤ (alookup m.ttl k).getD 0 := by omega
    simp [MemoryCache.get_data, hw, hnot, alookup_removeKey_self]

/-- Claim C6 witness: a key set at instant 1 with a 10-second TTL is still
returned at instant 11; a key recorded as expiring at instant 4 is removed by
a get at instant 5. -/
theorem c6_witness :
    (0 < 3) ∧
    ((11 ≤ 1 + 10 →
      (((MemoryCache.mk [("k", PyVal.jInt 0)] [("k", 4)] 3).set_data "k"
          (PyVal.jInt 7) 10 1).2.get_data "k" 11).1 = some (PyVal.jInt 7)) ∧
     ((alookup [("k", PyVal.jInt 0)] "k").isSome = true →
      (alookup [("k", 4)] "k").getD 0 < 11 →
      (((MemoryCache.mk [("k", PyVal.jInt 0)] [("k", 4)] 3).get_data
          "k" 11).1 = none ∧
       alookup ((MemoryCache.mk [("k", PyVal.jInt 0)] [("k", 4)]
          3).get_data "k" 11).2.cache "k" = none ∧
       alookup ((MemoryCache.mk [("k", PyVal.jInt 0)] [("k", 4)]
          3).get_data "k" 11).2.ttl "k" = none))) :=
  ⟨by decide,
    c6_ttl_expiry_amended
      (MemoryCache.mk [("k", PyVal.jInt 0)] [("k", 4)] 3) "k"
      (PyVal.jInt 7) 10 1 11 (by decide)⟩

/-- Claim C7: from any coordinator state with a fallback tier of positive
capacity, `set_data(k, v, 3600)` immediately followed by `get_data(k)` (same
instant, no intervening operations) returns exactly `v` for every
JSON-serializable value `v` — whether the value is served by the remote tier
(healthy remote store, probe allowed) or by the fallback tier (remote down
or skipped). -/
theorem c7_set_then_get_roundtrip (s : CompositeCache) (k : String)
    (v : PyVal) (now : Nat) (hser : v.serializable = true)
    (hN : 0 < s.memory.maxSize) :
    ((s.set_data k v 3600 now).2.get_data k now).1 = some v := by
  have hmem : ∀ now' ≤ now + 3600,
      ((s.memory.set_data k v 3600 now).2.get_data k now').1 = some v :=
    fun _ h => mem_set_get hN h
  by_cases hT : s.should_try_redis now = true
  · by_cases hup : s.redis.up = true
    · have hset : s.redis.set_data k v 3600
          = (true, { s.redis with store := odSet s.redis.store k (Payload.good v) }) := by
        simp [RedisClient.set_data, hup, hser]
      simp only [CompositeCache.set_data, hT, if_true, hset]
      simp [CompositeCache.get_data, CompositeCache.should_try_redis, truthyTime,
        RedisClient.get_data, hup, alookup_odSet_self]
    · have hup' : s.redis.up = false := by
        cases h : s.redis.up
        · rfl
        · exact absurd h hup
      have hset : s.redis.set_data k v 3600 = (false, s.redis) := by
        simp [RedisClient.set_data, hup']
      have hget : s.redis.get_data k = none := by
        simp [RedisClient.get_data, hup']
      simp only [CompositeCache.set_data, if_pos hT, hset]
      simp only [CompositeCache.get_data, hget]
      rw [apply_ite Prod.fst, ite_self]
      exact hmem now (by omega)
  · have hT' : s.should_try_redis now = false := by
      cases h : s.should_try_redis now
      · rfl
      · exact absurd h hT
    simp only [CompositeCache.set_data, if_neg hT]
    simp only [CompositeCache.get_data]
    have hsame : CompositeCache.should_try_redis
        { s with memory := (s.memory.set_data k v 3600 now).2 } now = false := hT'
    rw [hsame]
    simp only [Bool.false_eq_true, if_false]
    exact hmem now (by omega)

/-- Claim C7 witness: round trip through a healthy remote tier and through
the fallback tier with the remote store down. -/
theorem c7_witness :
    ((PyVal.jStr "p").serializable = true ∧ 0 < (memEmpty 10).maxSize ∧
      (PyVal.jStr "q").serializable = true) ∧
    ((((CompositeCache.mk upEmptyRedis (memEmpty 10) none 60).set_data "k"
        (PyVal.jStr "p") 3600 7).2.get_data "k" 7).1 = some (PyVal.jStr "p")) ∧
    (((compDown.set_data "k" (PyVal.jStr "q") 3600 7).2.get_data "k" 7).1
        = some (PyVal.jStr "q")) :=
  ⟨⟨by decide, by decide, by decide⟩,
    c7_set_then_get_roundtrip
      (CompositeCache.mk upEmptyRedis (memEmpty 10) none 60) "k"
      (PyVal.jStr "p") 7 (by decide) (by decide),
    c7_set_then_get_roundtrip compDown "k" (PyVal.jStr "q") 7
      (by decide) (by decide)⟩

/-- Claim C8: `delete_data` is idempotent and always reports success, on the
fallback store and on the coordinator: the first component is `true` for
every state and key, and a second delete of the same key at the same instant
returns the same result and leaves the state identical to one call.  On the
fallback store the result is `true` whether or not the key was present. -/
theorem c8_delete_idempotent_and_always_true (m : MemoryCache)
    (s : CompositeCache) (k k2 : String) (now : Nat) :
    ((m.delete_data k).1 = true) ∧
    ((m.delete_data k).2.delete_data k = m.delete_data k) ∧
    ((s.delete_data k2 now).1 = true) ∧
    ((s.delete_data k2 now).2.delete_data k2 now = s.delete_data k2 now) :=
  ⟨mem_delete_fst m k, mem_delete_idem m k, comp_delete_fst s k2 now,
    comp_delete_idem s k2 now⟩

/-- Claim C10: with a fallback tier of positive capacity, the coordinator's
`set_data` and `delete_data` return `true` for every key and every value —
including values `json.dumps` cannot serialize — because the fallback
`MemoryCache.set_data` stores any value unconditionally (no serialization)
and `MemoryCache.delete_data` succeeds on absent keys, while the remote
`set_data` fails on a non-serializable value. -/
theorem c10_composite_writes_always_report_success (s : CompositeCache)
    (m : MemoryCache) (c : RedisClient) (k : String) (v : PyVal) (t now : Nat)
    (hN : 0 < s.memory.maxSize) (hM : 0 < m.maxSize) :
    ((s.set_data k v t now).1 = true) ∧
    ((s.delete_data k now).1 = true) ∧
    ((m.set_data k v t now).1 = true) ∧
    (alookup (m.set_data k v t now).2.cache k = some v) ∧
    (alookup m.cache k = none → m.delete_data k = (true, m)) ∧
    (v.serializable = false → (c.set_data k v t).1 = false) := by
  refine ⟨?_, comp_delete_fst s k now, mem_set_fst k v t now hM,
    mem_set_alookup k v t now hM, ?_, ?_⟩
  · have hm := mem_set_fst (m := s.memory) k v t now hN
    cases hT : s.should_try_redis now with
    | false => simp [CompositeCache.set_data, hT, hm]
    | true => simp [CompositeCache.set_data, hT, hm]
  · intro h
    simp [MemoryCache.delete_data, h]
  · intro hns
    cases hcup : c.up with
    | false => simp [RedisClient.set_data, hcup]
    | true => simp [RedisClient.set_data, hcup, hns]

/-- Claim C10 witness: a non-serializable value over a dead remote store
still yields successful coordinator writes. -/
theorem c10_witness :
    (0 < compDown.memory.maxSize ∧ 0 < (memEmpty 3).maxSize) ∧
    (((compDown.set_data "k" (PyVal.nonJson 0) 5 9).1 = true) ∧
     ((compDown.delete_data "k" 9).1 = true) ∧
     (((memEmpty 3).set_data "k" (PyVal.nonJson 0) 5 9).1 = true) ∧
     (alookup ((memEmpty 3).set_data "k" (PyVal.nonJson 0) 5 9).2.cache "k"
        = some (PyVal.nonJson 0)) ∧
     (alookup (memEmpty 3).cache "k" = none →
        (memEmpty 3).delete_data "k" = (true, memEmpty 3)) ∧
     ((PyVal.nonJson 0).serializable = false →
        (upEmptyRedis.set_data "k" (PyVal.nonJson 0) 5).1 = false)) :=
  ⟨⟨by decide, by decide⟩,
    c10_composite_writes_always_report_success compDown (memEmpty 3)
      upEmptyRedis "k" (PyVal.nonJson 0) 5 9 (by decide) (by decide)⟩

/-- Claim C9 (counterexample): three pairs of distinct input tuples that
produce identical keys: an empty interval string is falsy in the source's
guard and is dropped; a colon inside a segment makes two different splits
collide; and the interval is ignored whenever the data type is not
"intraday". -/
theorem c9_key_builder_not_injective :
    (build_market_data_key "A" "intraday" (some "")
        = build_market_data_key "A" "intraday" none ∧
      (some "" : Option String) ≠ none) ∧
    (build_market_data_key "a:b" "c" none = build_market_data_key "a" "b:c" none ∧
      ("a:b", "c") ≠ ("a", "b:c")) ∧
    (build_market_data_key "A" "daily" (some "5min")
        = build_market_data_key "A" "daily" none ∧
      (some "5min" : Option String) ≠ none) := by
  decide

/-- Claim C9 (amended): `build_market_data_key` is deterministic (it is a
pure function of its arguments) and produces the documented format; it is
injective once restricted to well-formed argument tuples — segments free of
the ':' separator, with an interval supplied exactly when it is non-empty
and the data type is "intraday".  Outside that restriction distinct tuples
can collide (see the counterexample). -/
theorem c9_key_builder_injective_on_wellformed (s₁ d₁ : String)
    (i₁ : Option String) (s₂ d₂ : String) (i₂ : Option String)
    (h₁ : KeyArgsOk s₁ d₁ i₁) (h₂ : KeyArgsOk s₂ d₂ i₂)
    (heq : build_market_data_key s₁ d₁ i₁ = build_market_data_key s₂ d₂ i₂) :
    s₁ = s₂ ∧ d₁ = d₂ ∧ i₁ = i₂ := by
  obtain ⟨hs₁, hd₁, hi₁⟩ := h₁
  obtain ⟨hs₂, hd₂, hi₂⟩ := h₂
  have hshort : ∀ s d : String,
      build_market_data_key s d none = "market_data:" ++ s ++ ":" ++ d :=
    fun _ _ => rfl
  cases i₁ with
  | none =>
    cases i₂ with
    | none =>
      rw [hshort, hshort] at heq
      have hsp := congrArg splitC (congrArg String.data heq)
      rw [splitC_key_short hs₁ hd₁, splitC_key_short hs₂ hd₂] at hsp
      simp only [List.cons.injEq, and_true, true_and] at hsp
      exact ⟨String.ext hsp.1, String.ext hsp.2, rfl⟩
    | some x₂ =>
      have hx : noColon x₂ = true ∧ x₂ ≠ "" ∧ d₂ = "intraday" := hi₂
      obtain ⟨hxc, hxe, hdi⟩ := hx
      have hb : build_market_data_key s₂ d₂ (some x₂)
          = "market_data:" ++ s₂ ++ ":" ++ d₂ ++ ":" ++ x₂ := by
        simp [build_market_data_key, hdi, hxe]
      rw [hshort, hb] at heq
      have hsp := congrArg splitC (congrArg String.data heq)
      rw [splitC_key_short hs₁ hd₁, splitC_key_long hs₂ hd₂ hxc] at hsp
      simp at hsp
  | some x₁ =>
    have hx : noColon x₁ = true ∧ x₁ ≠ "" ∧ d₁ = "intraday" := hi₁
    obtain ⟨hxc₁, hxe₁, hdi₁⟩ := hx
    have hb₁ : build_market_data_key s₁ d₁ (some x₁)
        = "market_data:" ++ s₁ ++ ":" ++ d₁ ++ ":" ++ x₁ := by
      simp [build_market_data_key, hdi₁, hxe₁]
    cases i₂ with
    | none =>
      rw [hb₁, hshort] at heq
      have hsp := congrArg splitC (congrArg String.data heq)
      rw [splitC_key_long hs₁ hd₁ hxc₁, splitC_key_short hs₂ hd₂] at hsp
      simp at hsp
    | some x₂ =>
      have hx : noColon x₂ = true ∧ x₂ ≠ "" ∧ d₂ = "intraday" := hi₂
      obtain ⟨hxc₂, hxe₂, hdi₂⟩ := hx
      have hb₂ : build_market_data_key s₂ d₂ (some x₂)
          = "market_data:" ++ s₂ ++ ":" ++ d₂ ++ ":" ++ x₂ := by
        simp [build_market_data_key, hdi₂, hxe₂]
      rw [hb₁, hb₂] at heq
      have hsp := congrArg splitC (congrArg String.data heq)
      rw [splitC_key_long hs₁ hd₁ hxc₁, splitC_key_long hs₂ hd₂ hxc₂] at hsp
      simp only [List.cons.injEq, and_true, true_and] at hsp
      exact ⟨String.ext hsp.1, String.ext hsp.2.1,
        congrArg some (String.ext hsp.2.2)⟩

/-- Claim C9 witness: the restricted-injectivity theorem applied at a
well-formed intraday tuple. -/
theorem c9_witness :
    (KeyArgsOk "AAPL" "intraday" (some "5min") ∧
      build_market_data_key "AAPL" "intraday" (some "5min")
        = build_market_data_key "AAPL" "intraday" (some "5min")) ∧
    ("AAPL" = "AAPL" ∧ "intraday" = "intraday" ∧
      (some "5min" : Option String) = some "5min") :=
  ⟨⟨⟨by decide, by decide, by decide, by decide, rfl⟩, rfl⟩,
    c9_key_builder_injective_on_wellformed "AAPL" "intraday" (some "5min")
      "AAPL" "intraday" (some "5min")
      ⟨by decide, by decide, by decide, by decide, rfl⟩
      ⟨by decide, by decide, by decide, by decide, rfl⟩ rfl⟩

end GuessTrade
